import Mathlib

/-!
Verification of the capability-gated streaming upload pipeline
(`src/web/api.rs` of vakabus/gimmethat) against its specification.

The orchestrator (`put_upload`, `handle_upload`, `put_upload_public`) is
translated directly from the source. The external collaborators that live in
other modules of the repository (the capability type, the directory/quota
ledger and the file writer) are modelled from the specification's interface
contracts, since only their call sites appear in the source file.
-/

/-- Modelled from the spec: decode failure of the capability codec. The codec
itself is an external collaborator; the spec distinguishes only "wrong key"
versus "malformed" as the two underlying causes, neither of which may be
surfaced to the caller. -/
inductive DecryptError where
  | wrongKey
  | malformed
deriving DecidableEq, Repr

/-- Modelled from the spec: a decoded Capability exposes an expiry check, a
structural validity check surfacing a violation description, and the
directory identifier. The orchestrator uses nothing else. -/
structure UploadCapability where
  is_expired : Bool
  validate : Except String Unit
  dir_name : String

/-- Modelled from the spec: the outcome of one chunk write attempt. `ok`
persists the whole chunk; `fault` persists at most `extra` further bytes of
the chunk and reports a message. -/
inductive WriteResult where
  | ok
  | fault (extra : Nat) (msg : String)

/-- Modelled from the spec: the behaviour of the storage layer backing one
writer session. `write_result` maps (attempt index, chunk) to the outcome of
that write; `finalize_fault_msgs` are the diagnostics finalize appends after
a write fault (the outcome report is empty on clean success). -/
structure WriterEnv where
  write_result : Nat → List Nat → WriteResult
  finalize_fault_msgs : List String

/-- Modelled from the spec: a Streaming FileWriter session. `committed` is the
running count of bytes durably persisted; `faulted` records whether a write
fault occurred; `finalized` records that the terminal finalize step ran. -/
structure FileWriter where
  env : WriterEnv
  committed : Nat
  attempts : Nat
  faulted : Bool
  finalized : Bool

/-- A fresh writer session: nothing persisted yet. -/
def mk_writer (env : WriterEnv) : FileWriter :=
  { env := env, committed := 0, attempts := 0, faulted := false, finalized := false }

/-- Modelled from the spec: `FileWriter.write_chunk(bytes) -> Ok | WriteError`.
On success the whole chunk is durably persisted; on a fault at most a prefix
of the chunk is persisted and an error message is returned. -/
def FileWriter.write_all (w : FileWriter) (bytes : List Nat) : FileWriter × Option String :=
  match w.env.write_result w.attempts bytes with
  | .ok =>
      ({ w with committed := w.committed + bytes.length, attempts := w.attempts + 1 }, none)
  | .fault extra msg =>
      ({ w with committed := w.committed + min extra bytes.length,
                attempts := w.attempts + 1, faulted := true }, some msg)

/-- Modelled from the spec: `FileWriter.bytes_written()` — the exact count of
bytes durably committed so far. -/
def FileWriter.get_bytes_really_written (w : FileWriter) : Nat := w.committed

/-- Modelled from the spec: `FileWriter.finalize()` is side-effect-complete — it
leaves the committed byte count unchanged and returns zero or more diagnostic
messages, which are empty on a clean (fault-free) session. -/
def FileWriter.finalize (w : FileWriter) : FileWriter × List String :=
  ({ w with finalized := true }, if w.faulted then w.env.finalize_fault_msgs else [])

/-- Modelled from the spec: a directory handle exposes the remaining-byte
budget and writer acquisition. -/
structure Directory where
  get_remaining_bytes : UploadCapability → Nat
  create_file_writer : UploadCapability → String → Option Nat → Except String WriterEnv

/-- Modelled from the spec: the request context gives directory lookup by
identifier and the opaque capability decoder. -/
structure Context where
  dirs_get : String → Except String Directory
  crypto_decrypt : String → Except DecryptError UploadCapability

/-- The request body as delivered by the transport: each element is either a
received chunk of bytes or a receive fault with its error description. -/
abbrev Body := List (Except String (List Nat))

/-- Observable side effects of one request, in order of occurrence. -/
inductive Event where
  | dirLookup
  | quotaRead
  | writerAcquired
  | finalized
deriving DecidableEq, Repr

/-- The caller-visible outcome: a rejection with an HTTP status code and a
body, or a completion report with the bytes-written count and the ordered
message list. -/
inductive HandlerResult where
  | err (status : Nat) (msg : String)
  | ok (bytes_written : Nat) (msgs : List String)
deriving DecidableEq, Repr

/-- One full run of the handler: the response, the side-effect trace, and the
final (post-finalize) writer state when a writer was acquired. -/
structure HandlerRun where
  result : HandlerResult
  events : List Event
  finalWriter : Option FileWriter

/-- The streaming transfer loop of `handle_upload` (`api.rs` lines 82-97):
consume the body chunks in order, writing each before requesting the next; a
receive fault or a write fault records one descriptive message and stops. -/
def transfer_loop : FileWriter → Body → FileWriter × List String
  | w, [] => (w, [])
  | w, .ok bytes :: rest =>
      match FileWriter.write_all w bytes with
      | (w', none) => transfer_loop w' rest
      | (w', some err) => (w', ["error while writing the file: " ++ err])
  | w, .error err :: _ => (w, ["error while receiving the file: " ++ err])

/-- Total number of body bytes delivered in `ok` chunks. -/
def body_len (body : Body) : Nat :=
  (body.map fun c => match c with | .ok bs => bs.length | .error _ => 0).sum

/-- Translation of `handle_upload` (`api.rs` lines 31-107): expiry check,
structural validation, directory lookup, quota pre-check with absent declared
length treated as 0, writer acquisition, transfer loop, then finalize and
response assembly. -/
def handle_upload (cap : UploadCapability) (name : String) (body : Body)
    (content_length : Option Nat) (ctx : Context) : HandlerRun :=
  if cap.is_expired then
    { result := .err 401 "link expired\n", events := [], finalWriter := none }
  else
    match cap.validate with
    | .error err =>
        { result := .err 400 ("link data invalid: " ++ err ++ "\n"),
          events := [], finalWriter := none }
    | .ok _ =>
        match ctx.dirs_get cap.dir_name with
        | .error e =>
            { result := .err 500 e, events := [.dirLookup], finalWriter := none }
        | .ok directory =>
            if content_length.getD 0 > directory.get_remaining_bytes cap then
              { result := .err 413 "the data want to upload does not fit within the data limit\n",
                events := [.dirLookup, .quotaRead], finalWriter := none }
            else
              match directory.create_file_writer cap name content_length with
              | .error err =>
                  { result := .err 500 err,
                    events := [.dirLookup, .quotaRead], finalWriter := none }
              | .ok wenv =>
                  let r := transfer_loop (mk_writer wenv) body
                  let bytes_written := r.1.get_bytes_really_written
                  let fin := FileWriter.finalize r.1
                  { result := .ok bytes_written (r.2 ++ fin.2),
                    events := [.dirLookup, .quotaRead, .writerAcquired, .finalized],
                    finalWriter := some fin.1 }

/-- Translation of `put_upload` (`api.rs` lines 16-29): decode the capability
token; any decode error is logged and surfaced as the generic response
"decryption failure" (a plain-string `ErrorResponse`, hence status 200), then
`handle_upload` runs. -/
def put_upload (ctx : Context) (capability name : String) (content_length : Option Nat)
    (body : Body) : HandlerRun :=
  match ctx.crypto_decrypt capability with
  | .error _ =>
      { result := .err 200 "decryption failure", events := [], finalWriter := none }
  | .ok cap => handle_upload cap name body content_length ctx

/-- The server-generated destination name for the public endpoint
(`api.rs` line 116): the decimal string of one 64-bit value drawn from the
operating-system randomness source (`OsRng.next_u64().to_string()`). The
draw is passed in as `rand`. -/
def gen_name (rand : Nat) : String := Nat.repr rand

/-- Translation of `put_upload_public` (`api.rs` lines 109-120): when no
destination name is supplied, generate one from the random draw; then decode
and hand over to `handle_upload` as for the named endpoint. -/
def put_upload_public (ctx : Context) (capability : String) (name : Option String)
    (content_length : Option Nat) (body : Body) (rand : Nat) : HandlerRun :=
  let name := name.getD (gen_name rand)
  match ctx.crypto_decrypt capability with
  | .error _ =>
      { result := .err 200 "decryption failure", events := [], finalWriter := none }
  | .ok cap => handle_upload cap name body content_length ctx

/-!
Decimal representation: `gen_name` is `Nat.repr`, whose injectivity underlies
the no-collision property of generated names. The fuel-based core function
`Nat.toDigitsCore` is first related to a fuel-free recursion. -/

/-- Fuel-free decimal digit list of a natural number, most significant first. -/
def dec_chars (n : Nat) : List Char :=
  if _h : n < 10 then [Nat.digitChar n]
  else dec_chars (n / 10) ++ [Nat.digitChar (n % 10)]
decreasing_by exact Nat.div_lt_self (by omega) (by omega)

lemma toDigitsCore_eq_dec_chars (fuel n : Nat) (ds : List Char) (h : n < fuel) :
    Nat.toDigitsCore 10 fuel n ds = dec_chars n ++ ds := by
  induction fuel generalizing n ds with
  | zero => omega
  | succ f ih =>
    rw [Nat.toDigitsCore]
    by_cases h10 : n / 10 = 0
    · rw [if_pos h10, dec_chars]
      have hn : n < 10 := by omega
      rw [dif_pos hn, Nat.mod_eq_of_lt hn]
      simp
    · rw [if_neg h10]
      have hge : 10 ≤ n := by
        by_contra hc
        exact h10 (Nat.div_eq_of_lt (by omega))
      have hlt : n / 10 < f := by
        have hd := Nat.div_lt_self (show 0 < n by omega) (show 1 < 10 by omega)
        omega
      have hn : ¬ n < 10 := by omega
      have hrhs : dec_chars n = dec_chars (n / 10) ++ [Nat.digitChar (n % 10)] := by
        rw [dec_chars, dif_neg hn]
      rw [hrhs, ih _ _ hlt]
      simp

lemma nat_repr_eq_dec_chars (n : Nat) : Nat.repr n = (dec_chars n).asString := by
  show (Nat.toDigits 10 n).asString = _
  rw [Nat.toDigits, toDigitsCore_eq_dec_chars (n + 1) n [] (Nat.lt_succ_self n)]
  simp

/-- Decimal value of a digit list, inverse of `dec_chars`. -/
def dec_val (l : List Char) : Nat := l.foldl (fun a c => 10 * a + (c.toNat - 48)) 0

lemma digit_char_toNat : ∀ k, k < 10 → (Nat.digitChar k).toNat = 48 + k := by decide

lemma dec_val_dec_chars (n : Nat) : dec_val (dec_chars n) = n := by
  induction n using Nat.strong_induction_on with
  | _ n ih =>
    rw [dec_chars]
    by_cases h : n < 10
    · rw [dif_pos h]
      simp [dec_val, List.foldl, digit_char_toNat n h]
    · rw [dif_neg h]
      have hlt : n / 10 < n := Nat.div_lt_self (by omega) (by omega)
      have hv := ih _ hlt
      unfold dec_val at hv ⊢
      rw [List.foldl_append, hv]
      simp [List.foldl, digit_char_toNat (n % 10) (Nat.mod_lt n (by omega))]
      omega

lemma nat_repr_injective {m n : Nat} (h : Nat.repr m = Nat.repr n) : m = n := by
  rw [nat_repr_eq_dec_chars, nat_repr_eq_dec_chars] at h
  have hc : dec_chars m = dec_chars n := congrArg String.data h
  have := congrArg dec_val hc
  rwa [dec_val_dec_chars, dec_val_dec_chars] at this

/-!
Structural lemmas about the transfer loop. -/

lemma transfer_loop_nil (w : FileWriter) : transfer_loop w [] = (w, []) := rfl

lemma transfer_loop_cons_ok (w : FileWriter) (bytes : List Nat) (rest : Body) :
    transfer_loop w (.ok bytes :: rest) =
      match FileWriter.write_all w bytes with
      | (w', none) => transfer_loop w' rest
      | (w', some err) => (w', ["error while writing the file: " ++ err]) := rfl

lemma transfer_loop_cons_err (w : FileWriter) (err : String) (rest : Body) :
    transfer_loop w (.error err :: rest) =
      (w, ["error while receiving the file: " ++ err]) := rfl

lemma write_all_ok {w w' : FileWriter} {bytes : List Nat}
    (h : FileWriter.write_all w bytes = (w', none)) :
    w'.committed = w.committed + bytes.length ∧ w'.faulted = w.faulted := by
  unfold FileWriter.write_all at h
  cases hr : w.env.write_result w.attempts bytes with
  | ok =>
    rw [hr] at h
    simp only [Prod.mk.injEq] at h
    rw [← h.1]
    exact ⟨rfl, rfl⟩
  | fault extra msg =>
    rw [hr] at h
    simp at h

lemma transfer_loop_append (w : FileWriter) (l1 l2 : Body) :
    transfer_loop w (l1 ++ l2) =
      if (transfer_loop w l1).2 = [] then transfer_loop (transfer_loop w l1).1 l2
      else transfer_loop w l1 := by
  induction l1 generalizing w with
  | nil => simp [transfer_loop]
  | cons c rest ih =>
    cases c with
    | ok bytes =>
      rw [List.cons_append, transfer_loop_cons_ok, transfer_loop_cons_ok]
      cases hw : FileWriter.write_all w bytes with
      | mk w' r =>
        cases r with
        | none => simpa using ih w'
        | some e => simp
    | error e =>
      rw [List.cons_append, transfer_loop_cons_err, transfer_loop_cons_err]
      simp

lemma transfer_loop_clean (body : Body) : ∀ w : FileWriter, (transfer_loop w body).2 = [] →
    (transfer_loop w body).1.committed = w.committed + body_len body ∧
    (transfer_loop w body).1.faulted = w.faulted := by
  induction body with
  | nil =>
    intro w _
    simp [transfer_loop, body_len]
  | cons c rest ih =>
    intro w hmsgs
    cases c with
    | ok bytes =>
      rw [transfer_loop_cons_ok] at hmsgs ⊢
      cases hw : FileWriter.write_all w bytes with
      | mk w' r =>
        rw [hw] at hmsgs
        cases r with
        | none =>
          have hok := write_all_ok hw
          have := ih w' hmsgs
          constructor
          · rw [this.1, hok.1]
            simp [body_len]
            omega
          · rw [this.2, hok.2]
        | some e => simp at hmsgs
    | error e =>
      rw [transfer_loop_cons_err] at hmsgs
      simp at hmsgs

/-!
Concrete sample instances used by the witnesses. -/

/-- A valid, non-expired capability for directory "d". -/
def sample_cap : UploadCapability :=
  { is_expired := false, validate := .ok (), dir_name := "d" }

/-- A capability that is both expired and structurally invalid. -/
def sample_cap_expired : UploadCapability :=
  { is_expired := true, validate := .error "broken", dir_name := "d" }

/-- A storage layer that accepts every write. -/
def sample_env : WriterEnv :=
  { write_result := fun _ _ => .ok, finalize_fault_msgs := ["file truncated"] }

/-- A storage layer whose first write attempt faults with no bytes of the
chunk persisted. -/
def sample_env_wfail : WriterEnv :=
  { write_result := fun _ _ => .fault 0 "disk full", finalize_fault_msgs := ["file truncated"] }

/-- A directory with 1000 remaining bytes and a fault-free write path. -/
def sample_dir : Directory :=
  { get_remaining_bytes := fun _ => 1000, create_file_writer := fun _ _ _ => .ok sample_env }

/-- A directory with 1000 remaining bytes whose write path faults at once. -/
def sample_dir_wfail : Directory :=
  { get_remaining_bytes := fun _ => 1000,
    create_file_writer := fun _ _ _ => .ok sample_env_wfail }

/-- A context whose lookup finds `sample_dir` and whose decoder accepts. -/
def sample_ctx : Context :=
  { dirs_get := fun _ => .ok sample_dir, crypto_decrypt := fun _ => .ok sample_cap }

/-- A context backed by the faulting write path. -/
def sample_ctx_wfail : Context :=
  { dirs_get := fun _ => .ok sample_dir_wfail, crypto_decrypt := fun _ => .ok sample_cap }

/-- A context whose decoder always reports a wrong-key failure. -/
def sample_ctx_badkey : Context :=
  { dirs_get := fun _ => .ok sample_dir, crypto_decrypt := fun _ => .error .wrongKey }

/-- A context whose decoder always reports a malformed-token failure. -/
def sample_ctx_malformed : Context :=
  { dirs_get := fun _ => .ok sample_dir, crypto_decrypt := fun _ => .error .malformed }

/-!
The claims. -/

/-- C3: an expired capability is rejected with the unauthorized status (401)
before structural validation (no assumption on `validate` is needed) and
before any directory lookup, quota read or writer acquisition: the event
trace is empty and no writer exists. -/
theorem expired_rejected_first (cap : UploadCapability) (name : String) (body : Body)
    (content_length : Option Nat) (ctx : Context) (h : cap.is_expired = true) :
    handle_upload cap name body content_length ctx =
      { result := .err 401 "link expired\n", events := [], finalWriter := none } := by
  unfold handle_upload
  rw [h]
  simp

/-- C3 witness: a capability that is simultaneously expired and structurally
invalid is reported as expired, with no side effect. -/
theorem expired_rejected_first_witness :
    handle_upload sample_cap_expired "f" [] none sample_ctx =
      { result := .err 401 "link expired\n", events := [], finalWriter := none } :=
  expired_rejected_first sample_cap_expired "f" [] none sample_ctx rfl

/-- C4: for a valid, non-expired capability with a successful directory
lookup, the quota pre-check rejects with 413 exactly when the declared length
(absent treated as 0) strictly exceeds the remaining budget; the rejection
happens after the quota read but before any writer acquisition, and an absent
declared length never triggers the 413 rejection. -/
theorem quota_precheck_iff (cap : UploadCapability) (name : String) (body : Body)
    (content_length : Option Nat) (ctx : Context) (d : Directory)
    (hexp : cap.is_expired = false) (hval : cap.validate = .ok ())
    (hdir : ctx.dirs_get cap.dir_name = .ok d) :
    (((handle_upload cap name body content_length ctx).result =
        .err 413 "the data want to upload does not fit within the data limit\n")
      ↔ content_length.getD 0 > d.get_remaining_bytes cap)
    ∧ (content_length.getD 0 > d.get_remaining_bytes cap →
        (handle_upload cap name body content_length ctx).events = [.dirLookup, .quotaRead])
    ∧ (content_length = none →
        (handle_upload cap name body content_length ctx).result ≠
          .err 413 "the data want to upload does not fit within the data limit\n") := by
  unfold handle_upload
  rw [hexp, hval, hdir]
  by_cases hq : content_length.getD 0 > d.get_remaining_bytes cap
  · refine ⟨⟨fun _ => hq, fun _ => ?_⟩, fun _ => ?_, fun hnone => ?_⟩
    · simp [hq]
    · simp [hq]
    · rw [hnone] at hq
      simp at hq
  · refine ⟨⟨fun hres => ?_, fun hgt => absurd hgt hq⟩, fun hgt => absurd hgt hq, fun _ hres => ?_⟩
    · simp only [if_neg hq] at hres
      cases hcw : d.create_file_writer cap name content_length with
      | error e =>
        rw [hcw] at hres
        simp at hres
      | ok wenv =>
        rw [hcw] at hres
        simp at hres
    · simp only [if_neg hq] at hres
      cases hcw : d.create_file_writer cap name content_length with
      | error e =>
        rw [hcw] at hres
        simp at hres
      | ok wenv =>
        rw [hcw] at hres
        simp at hres

/-- C4 witness: with 1000 remaining bytes, a declared length of 2000 is
rejected with 413 before a writer is acquired; a declared length of exactly
1000 passes the pre-check. -/
theorem quota_precheck_iff_witness :
    ((handle_upload sample_cap "f" [] (some 2000) sample_ctx).result =
        .err 413 "the data want to upload does not fit within the data limit\n")
    ∧ (handle_upload sample_cap "f" [] (some 2000) sample_ctx).events =
        [.dirLookup, .quotaRead]
    ∧ ¬ ((handle_upload sample_cap "f" [] (some 1000) sample_ctx).result =
        .err 413 "the data want to upload does not fit within the data limit\n") :=
  ⟨((quota_precheck_iff sample_cap "f" [] (some 2000) sample_ctx sample_dir
      rfl rfl rfl).1).2 (by decide),
   (quota_precheck_iff sample_cap "f" [] (some 2000) sample_ctx sample_dir
      rfl rfl rfl).2.1 (by decide),
   fun hres => by
     have := ((quota_precheck_iff sample_cap "f" [] (some 1000) sample_ctx sample_dir
       rfl rfl rfl).1).1 hres
     simp [sample_dir] at this⟩

/-- C7: the response status class reflects the stage at which the request
failed: 401 for an expired capability, 400 for a structurally invalid one,
413 for declared-length-over-quota, 500 for infrastructure faults (directory
lookup failure or writer acquisition failure), and a success completion for
any transfer that reached the streaming stage, partial or not. -/
theorem status_reflects_stage (cap : UploadCapability) (name : String) (body : Body)
    (content_length : Option Nat) (ctx : Context) :
    (cap.is_expired = true →
      (handle_upload cap name body content_length ctx).result = .err 401 "link expired\n")
    ∧ (∀ e, cap.is_expired = false → cap.validate = .error e →
      (handle_upload cap name body content_length ctx).result =
        .err 400 ("link data invalid: " ++ e ++ "\n"))
    ∧ (∀ e, cap.is_expired = false → cap.validate = .ok () →
      ctx.dirs_get cap.dir_name = .error e →
      (handle_upload cap name body content_length ctx).result = .err 500 e)
    ∧ (∀ d, cap.is_expired = false → cap.validate = .ok () →
      ctx.dirs_get cap.dir_name = .ok d →
      content_length.getD 0 > d.get_remaining_bytes cap →
      (handle_upload cap name body content_length ctx).result =
        .err 413 "the data want to upload does not fit within the data limit\n")
    ∧ (∀ d e, cap.is_expired = false → cap.validate = .ok () →
      ctx.dirs_get cap.dir_name = .ok d →
      ¬ content_length.getD 0 > d.get_remaining_bytes cap →
      d.create_file_writer cap name content_length = .error e →
      (handle_upload cap name body content_length ctx).result = .err 500 e)
    ∧ (∀ d wenv, cap.is_expired = false → cap.validate = .ok () →
      ctx.dirs_get cap.dir_name = .ok d →
      ¬ content_length.getD 0 > d.get_remaining_bytes cap →
      d.create_file_writer cap name content_length = .ok wenv →
      ∃ n msgs, (handle_upload cap name body content_length ctx).result = .ok n msgs) := by
  refine ⟨fun hexp => ?_, fun e hexp hval => ?_, fun e hexp hval hdir => ?_,
    fun d hexp hval hdir hq => ?_, fun d e hexp hval hdir hq hcw => ?_,
    fun d wenv hexp hval hdir hq hcw => ?_⟩
  · unfold handle_upload
    rw [hexp]
    simp
  · unfold handle_upload
    rw [hexp, hval]
    simp
  · unfold handle_upload
    rw [hexp, hval, hdir]
    simp
  · unfold handle_upload
    rw [hexp, hval, hdir]
    simp [hq]
  · unfold handle_upload
    rw [hexp, hval, hdir]
    simp only [if_neg hq]
    rw [hcw]
    simp
  · unfold handle_upload
    rw [hexp, hval, hdir]
    simp only [if_neg hq]
    rw [hcw]
    exact ⟨_, _, rfl⟩

/-- C7 witness: each stage exercised at a concrete input produces the
corresponding status. -/
theorem status_reflects_stage_witness :
    (handle_upload sample_cap_expired "f" [] none sample_ctx).result =
      .err 401 "link expired\n"
    ∧ (handle_upload { is_expired := false, validate := .error "broken", dir_name := "d" }
        "f" [] none sample_ctx).result = .err 400 "link data invalid: broken\n"
    ∧ (handle_upload sample_cap "f" []
        (some 2000) sample_ctx).result =
      .err 413 "the data want to upload does not fit within the data limit\n"
    ∧ ∃ n msgs, (handle_upload sample_cap "f" [.ok [7, 7]] none sample_ctx).result =
        .ok n msgs :=
  ⟨(status_reflects_stage sample_cap_expired "f" [] none sample_ctx).1 rfl,
   (status_reflects_stage _ "f" [] none sample_ctx).2.1 "broken" rfl rfl,
   (status_reflects_stage sample_cap "f" [] (some 2000) sample_ctx).2.2.2.1
     sample_dir rfl rfl rfl (by decide),
   (status_reflects_stage sample_cap "f" [.ok [7, 7]] none sample_ctx).2.2.2.2.2
     sample_dir sample_env rfl rfl rfl (by decide) rfl⟩

/-- C5: for a valid, non-expired capability whose declared length passes the
quota pre-check, a transfer in which every chunk is received and written
without fault completes with bytes_written equal to the total body length and
an empty message list. -/
theorem clean_transfer_full_report (cap : UploadCapability) (name : String) (body : Body)
    (content_length : Option Nat) (ctx : Context) (d : Directory) (wenv : WriterEnv)
    (hexp : cap.is_expired = false) (hval : cap.validate = .ok ())
    (hdir : ctx.dirs_get cap.dir_name = .ok d)
    (hq : ¬ content_length.getD 0 > d.get_remaining_bytes cap)
    (hcw : d.create_file_writer cap name content_length = .ok wenv)
    (hclean : (transfer_loop (mk_writer wenv) body).2 = []) :
    (handle_upload cap name body content_length ctx).result = .ok (body_len body) [] := by
  unfold handle_upload
  rw [hexp, hval, hdir]
  simp only [if_neg hq]
  rw [hcw]
  have hc := transfer_loop_clean body (mk_writer wenv) hclean
  simp only [FileWriter.get_bytes_really_written, FileWriter.finalize, hclean,
    List.nil_append]
  rw [hc.1, hc.2]
  simp [mk_writer]

/-- C5 witness: a two-chunk five-byte body uploaded cleanly reports five
bytes written and no messages. -/
theorem clean_transfer_full_report_witness :
    (handle_upload sample_cap "f" [.ok [1, 2, 3], .ok [4, 5]] none sample_ctx).result =
      .ok 5 [] :=
  clean_transfer_full_report sample_cap "f" [.ok [1, 2, 3], .ok [4, 5]] none sample_ctx
    sample_dir sample_env rfl rfl rfl (by decide) rfl (by decide)

/-- C1: once a writer is acquired, a receive fault or a write fault on some
chunk (after a clean prefix) stops the transfer immediately — the response is
the same as if the body ended at the faulting chunk, so no later chunk is
read or written — records exactly one descriptive loop-time message, still
finalizes, and yields a success completion with the bytes-written count and
the messages, never a rejection. -/
theorem fault_best_effort (cap : UploadCapability) (name : String) (pre post : Body)
    (c : Except String (List Nat)) (content_length : Option Nat) (ctx : Context)
    (d : Directory) (wenv : WriterEnv) (w1 wf : FileWriter) (m : String)
    (hexp : cap.is_expired = false) (hval : cap.validate = .ok ())
    (hdir : ctx.dirs_get cap.dir_name = .ok d)
    (hq : ¬ content_length.getD 0 > d.get_remaining_bytes cap)
    (hcw : d.create_file_writer cap name content_length = .ok wenv)
    (hpre : transfer_loop (mk_writer wenv) pre = (w1, []))
    (hstep : (∃ e, c = .error e ∧ wf = w1 ∧ m = "error while receiving the file: " ++ e)
      ∨ (∃ bs e, c = .ok bs ∧ FileWriter.write_all w1 bs = (wf, some e)
          ∧ m = "error while writing the file: " ++ e)) :
    handle_upload cap name (pre ++ c :: post) content_length ctx =
      handle_upload cap name (pre ++ [c]) content_length ctx
    ∧ (handle_upload cap name (pre ++ c :: post) content_length ctx).result =
        .ok wf.get_bytes_really_written ([m] ++ (FileWriter.finalize wf).2)
    ∧ (handle_upload cap name (pre ++ c :: post) content_length ctx).events.count
        .finalized = 1 := by
  have hloop : ∀ post' : Body,
      transfer_loop (mk_writer wenv) (pre ++ c :: post') = (wf, [m]) := by
    intro post'
    rw [transfer_loop_append, hpre]
    rcases hstep with ⟨e, hc, hwf, hm⟩ | ⟨bs, e, hc, hw, hm⟩
    · subst hc
      subst hwf
      subst hm
      rw [transfer_loop_cons_err]
      simp
    · subst hc
      subst hm
      rw [transfer_loop_cons_ok, hw]
      simp
  have hrun : ∀ post' : Body,
      handle_upload cap name (pre ++ c :: post') content_length ctx =
        { result := .ok wf.get_bytes_really_written ([m] ++ (FileWriter.finalize wf).2),
          events := [.dirLookup, .quotaRead, .writerAcquired, .finalized],
          finalWriter := some (FileWriter.finalize wf).1 } := by
    intro post'
    unfold handle_upload
    rw [hexp, hval, hdir]
    simp only [if_neg hq]
    rw [hcw]
    simp only [hloop post']
    rfl
  refine ⟨?_, ?_, ?_⟩
  · rw [hrun post, hrun []]
  · rw [hrun post]
  · rw [hrun post]
    rfl

/-- C1 witness: a receive fault on the second chunk after three clean bytes
yields a completion of 3 bytes with the single receive-error message, the
run is identical to the one whose body ends at the fault, and finalize runs
exactly once. -/
theorem fault_best_effort_witness :
    handle_upload sample_cap "f" ([.ok [1, 2, 3]] ++ .error "reset" :: [.ok [9]])
        none sample_ctx =
      handle_upload sample_cap "f" ([.ok [1, 2, 3]] ++ [.error "reset"]) none sample_ctx
    ∧ (handle_upload sample_cap "f" ([.ok [1, 2, 3]] ++ .error "reset" :: [.ok [9]])
        none sample_ctx).result =
      .ok (FileWriter.get_bytes_really_written
            (transfer_loop (mk_writer sample_env) [.ok [1, 2, 3]]).1)
        (["error while receiving the file: reset"] ++
          (FileWriter.finalize (transfer_loop (mk_writer sample_env) [.ok [1, 2, 3]]).1).2)
    ∧ (handle_upload sample_cap "f" ([.ok [1, 2, 3]] ++ .error "reset" :: [.ok [9]])
        none sample_ctx).events.count .finalized = 1 :=
  fault_best_effort sample_cap "f" [.ok [1, 2, 3]] [.ok [9]] (.error "reset") none
    sample_ctx sample_dir sample_env
    (transfer_loop (mk_writer sample_env) [.ok [1, 2, 3]]).1
    (transfer_loop (mk_writer sample_env) [.ok [1, 2, 3]]).1
    "error while receiving the file: reset"
    rfl rfl rfl (by decide) rfl rfl
    (Or.inl ⟨"reset", rfl, rfl, rfl⟩)

/-- C6: finalize runs exactly once on every execution that acquires a writer
(and never otherwise) — covering both the normal end-of-body path and the
early fault-break path — and the completion report appends the finalize
diagnostics after the loop-time messages, preserving order. -/
theorem finalize_exactly_once (cap : UploadCapability) (name : String) (body : Body)
    (content_length : Option Nat) (ctx : Context) :
    ((Event.writerAcquired ∈ (handle_upload cap name body content_length ctx).events →
      (handle_upload cap name body content_length ctx).events.count Event.finalized = 1)
    ∧ (Event.writerAcquired ∉ (handle_upload cap name body content_length ctx).events →
      (handle_upload cap name body content_length ctx).events.count Event.finalized = 0))
    ∧ (∀ d wenv, cap.is_expired = false → cap.validate = .ok () →
      ctx.dirs_get cap.dir_name = .ok d →
      ¬ content_length.getD 0 > d.get_remaining_bytes cap →
      d.create_file_writer cap name content_length = .ok wenv →
      (handle_upload cap name body content_length ctx).result =
        .ok (transfer_loop (mk_writer wenv) body).1.get_bytes_really_written
          ((transfer_loop (mk_writer wenv) body).2 ++
            (FileWriter.finalize (transfer_loop (mk_writer wenv) body).1).2)) := by
  constructor
  · unfold handle_upload
    by_cases hexp : cap.is_expired = true
    · simp [hexp]
    · simp only [hexp, if_false, Bool.false_eq_true]
      cases hval : cap.validate with
      | error e => simp
      | ok u =>
        cases hdir : ctx.dirs_get cap.dir_name with
        | error e => simp
        | ok dd =>
          by_cases hq : content_length.getD 0 > dd.get_remaining_bytes cap
          · simp [hq]
          · simp only [if_neg hq]
            cases hcw : dd.create_file_writer cap name content_length with
            | error e => simp
            | ok wenv =>
              dsimp only
              exact ⟨fun _ => by decide, fun hnot => absurd (by decide) hnot⟩
  · intro d wenv hexp hval hdir hq hcw
    unfold handle_upload
    rw [hexp, hval, hdir]
    simp only [if_neg hq]
    rw [hcw]
    rfl

/-- C6 witness: with a writer acquired and a clean one-chunk body, finalize
is counted exactly once and the report is the loop result followed by the
finalize diagnostics. -/
theorem finalize_exactly_once_witness :
    (handle_upload sample_cap "f" [.ok [1]] none sample_ctx).result =
      .ok (transfer_loop (mk_writer sample_env) [.ok [1]]).1.get_bytes_really_written
        ((transfer_loop (mk_writer sample_env) [.ok [1]]).2 ++
          (FileWriter.finalize (transfer_loop (mk_writer sample_env) [.ok [1]]).1).2) :=
  (finalize_exactly_once sample_cap "f" [.ok [1]] none sample_ctx).2 sample_dir sample_env
    rfl rfl rfl (by decide) rfl

/-- C2: the completion report's byte count equals the bytes durably committed
once finalize has returned — the final writer is finalized and its durable
count is the reported count — and finalize never changes the durable count
(no late buffered writes). -/
theorem report_equals_durable :
    (∀ w : FileWriter,
      (FileWriter.finalize w).1.get_bytes_really_written = w.get_bytes_really_written)
    ∧ (∀ (cap : UploadCapability) (name : String) (body : Body)
        (content_length : Option Nat) (ctx : Context) (n : Nat) (msgs : List String),
      (handle_upload cap name body content_length ctx).result = .ok n msgs →
      ∃ w, (handle_upload cap name body content_length ctx).finalWriter = some w
        ∧ w.finalized = true ∧ w.get_bytes_really_written = n) := by
  constructor
  · intro w
    rfl
  · intro cap name body content_length ctx n msgs h
    unfold handle_upload at h ⊢
    by_cases hexp : cap.is_expired = true
    · rw [hexp] at h ⊢
      simp at h
    · rw [Bool.not_eq_true] at hexp
      rw [hexp] at h ⊢
      simp only [Bool.false_eq_true, if_false] at h ⊢
      cases hval : cap.validate with
      | error e =>
        rw [hval] at h
        simp at h
      | ok u =>
        rw [hval] at h
        cases hdir : ctx.dirs_get cap.dir_name with
        | error e =>
          rw [hdir] at h
          simp at h
        | ok dd =>
          rw [hdir] at h
          dsimp only at h ⊢
          by_cases hq : content_length.getD 0 > dd.get_remaining_bytes cap
          · rw [if_pos hq] at h
            simp at h
          · rw [if_neg hq] at h ⊢
            cases hcw : dd.create_file_writer cap name content_length with
            | error e =>
              rw [hcw] at h
              simp at h
            | ok wenv =>
              rw [hcw] at h
              dsimp only at h ⊢
              refine ⟨(FileWriter.finalize (transfer_loop (mk_writer wenv) body).1).1,
                rfl, rfl, ?_⟩
              have h3 : HandlerResult.ok
                  ((transfer_loop (mk_writer wenv) body).1.get_bytes_really_written)
                  ((transfer_loop (mk_writer wenv) body).2 ++
                    (FileWriter.finalize (transfer_loop (mk_writer wenv) body).1).2) =
                  HandlerResult.ok n msgs := h
              exact ((HandlerResult.ok.injEq _ _ _ _) ▸ h3).1

/-- C2 witness: for a concrete clean three-byte upload, the final writer is
finalized and its durable count equals the reported three bytes. -/
theorem report_equals_durable_witness :
    ∃ w, (handle_upload sample_cap "f" [.ok [1, 2, 3]] none sample_ctx).finalWriter = some w
      ∧ w.finalized = true ∧ w.get_bytes_really_written = 3 :=
  report_equals_durable.2 sample_cap "f" [.ok [1, 2, 3]] none sample_ctx 3
    [] rfl

/-- C8: the caller-visible decode-failure response is one fixed generic
response, identical for a wrong-key failure and a malformed-token failure,
on both upload endpoints; the specific error value never reaches the
caller. -/
theorem decode_failure_uniform (c1 c2 : Context) (t1 t2 name : String)
    (content_length : Option Nat) (body : Body) (r : Nat) (e1 e2 : DecryptError)
    (h1 : c1.crypto_decrypt t1 = .error e1) (h2 : c2.crypto_decrypt t2 = .error e2) :
    put_upload c1 t1 name content_length body = put_upload c2 t2 name content_length body
    ∧ put_upload c1 t1 name content_length body =
        { result := .err 200 "decryption failure", events := [], finalWriter := none }
    ∧ put_upload_public c1 t1 (some name) content_length body r =
        put_upload_public c2 t2 (some name) content_length body r
    ∧ put_upload_public c1 t1 none content_length body r =
        { result := .err 200 "decryption failure", events := [], finalWriter := none } := by
  unfold put_upload put_upload_public
  rw [h1, h2]
  exact ⟨rfl, rfl, rfl, rfl⟩

/-- C8 witness: a wrong-key context and a malformed-token context produce
identical responses, equal to the fixed generic decode-failure response. -/
theorem decode_failure_uniform_witness :
    put_upload sample_ctx_badkey "t" "n" none [] =
      put_upload sample_ctx_malformed "t" "n" none []
    ∧ put_upload sample_ctx_badkey "t" "n" none [] =
      { result := .err 200 "decryption failure", events := [], finalWriter := none } :=
  ⟨(decode_failure_uniform sample_ctx_badkey sample_ctx_malformed "t" "t" "n" none [] 0
      .wrongKey .malformed rfl rfl).1,
   (decode_failure_uniform sample_ctx_badkey sample_ctx_malformed "t" "t" "n" none [] 0
      .wrongKey .malformed rfl rfl).2.1⟩

/-- C9: the generated public-endpoint name is a deterministic injective image
of one fresh 64-bit draw from the OS randomness source, so distinct draws
always produce distinct names; among all 2^128 ordered pairs of 64-bit
draws, exactly 2^64 (one in 2^64) collide; and when no name is supplied the
request runs exactly as if the generated name had been supplied. -/
theorem gen_name_collision_resistant :
    (∀ r1 r2 : Nat, r1 ≠ r2 → gen_name r1 ≠ gen_name r2)
    ∧ (((Finset.univ : Finset (Fin (2 ^ 64) × Fin (2 ^ 64))).filter
        fun p => gen_name p.1.val = gen_name p.2.val).card = 2 ^ 64)
    ∧ ((Finset.univ : Finset (Fin (2 ^ 64) × Fin (2 ^ 64))).card = 2 ^ 128)
    ∧ (∀ (ctx : Context) (tok : String) (content_length : Option Nat) (body : Body)
        (r : Nat), put_upload_public ctx tok none content_length body r =
          put_upload_public ctx tok (some (gen_name r)) content_length body r) := by
  refine ⟨fun r1 r2 hne h => hne (nat_repr_injective h), ?_, ?_, fun _ _ _ _ _ => rfl⟩
  · have h1 : ((Finset.univ : Finset (Fin (2 ^ 64) × Fin (2 ^ 64))).filter
        fun p => gen_name p.1.val = gen_name p.2.val)
        = (Finset.univ.filter fun p : Fin (2 ^ 64) × Fin (2 ^ 64) => p.1 = p.2) := by
      apply Finset.filter_congr
      intro p _
      constructor
      · intro h
        exact Fin.ext (nat_repr_injective h)
      · intro h
        rw [h]
    have h2 : (Finset.univ.filter fun p : Fin (2 ^ 64) × Fin (2 ^ 64) => p.1 = p.2)
        = Finset.univ.image fun a : Fin (2 ^ 64) => (a, a) := by
      ext p
      simp only [Finset.mem_filter, Finset.mem_univ, true_and, Finset.mem_image]
      constructor
      · intro h
        exact ⟨p.1, by rw [Prod.ext_iff]; exact ⟨rfl, h⟩⟩
      · rintro ⟨a, rfl⟩
        rfl
    rw [h1, h2, Finset.card_image_of_injective _ (fun a b h => congrArg Prod.fst h),
      Finset.card_univ, Fintype.card_fin]
  · rw [Finset.card_univ, Fintype.card_prod, Fintype.card_fin, ← pow_add]

/-- C9 witness: two concrete distinct draws yield distinct generated
names. -/
theorem gen_name_collision_resistant_witness : gen_name 0 ≠ gen_name 1 :=
  gen_name_collision_resistant.1 0 1 (by decide)

/-- C10: a request that passes the pre-checks but whose body delivers zero
chunks still acquires a writer, finalizes it exactly once, and completes
with zero bytes and no messages (the loop contributes none and a clean
finalize contributes none); and on the public endpoint a missing name is
replaced by the decimal string of the single 64-bit random draw. -/
theorem empty_body_completion (cap : UploadCapability) (name tok : String)
    (content_length : Option Nat) (ctx : Context) (d : Directory) (wenv : WriterEnv)
    (body : Body) (r : Nat) :
    (cap.is_expired = false → cap.validate = .ok () →
      ctx.dirs_get cap.dir_name = .ok d →
      ¬ content_length.getD 0 > d.get_remaining_bytes cap →
      d.create_file_writer cap name content_length = .ok wenv →
      handle_upload cap name [] content_length ctx =
        { result := .ok 0 [],
          events := [.dirLookup, .quotaRead, .writerAcquired, .finalized],
          finalWriter := some (FileWriter.finalize (mk_writer wenv)).1 })
    ∧ (∀ cap2, ctx.crypto_decrypt tok = .ok cap2 →
        put_upload_public ctx tok none content_length body r =
          handle_upload cap2 (gen_name r) body content_length ctx)
    ∧ gen_name r = Nat.repr r := by
  refine ⟨fun hexp hval hdir hq hcw => ?_, fun cap2 hdec => ?_, rfl⟩
  · unfold handle_upload
    rw [hexp, hval, hdir]
    simp only [if_neg hq]
    rw [hcw]
    rfl
  · unfold put_upload_public
    rw [hdec]
    rfl

/-- C10 witness: the zero-chunk upload at concrete inputs completes with
zero bytes and no messages after acquiring and finalizing a writer, and the
public endpoint with no supplied name runs with the generated name. -/
theorem empty_body_completion_witness :
    handle_upload sample_cap "f" [] none sample_ctx =
      { result := .ok 0 [],
        events := [.dirLookup, .quotaRead, .writerAcquired, .finalized],
        finalWriter := some (FileWriter.finalize (mk_writer sample_env)).1 }
    ∧ put_upload_public sample_ctx "t" none none [] 7 =
        handle_upload sample_cap (gen_name 7) [] none sample_ctx :=
  ⟨(empty_body_completion sample_cap "f" "t" none sample_ctx sample_dir sample_env [] 7).1
      rfl rfl rfl (by decide) rfl,
   (empty_body_completion sample_cap "f" "t" none sample_ctx sample_dir sample_env [] 7).2.1
      sample_cap rfl⟩
